import Mathlib

/-!
Verification development for the text-to-image driver scripts
(scripts/txt2img.py and scripts/make_video.py).

The scripts are shallowly embedded: pure Python helpers become Lean
functions, the file-saving side effects of the generation loop become an
explicit event trace, and calls into external libraries (torch, PIL, cv2)
are modelled by their documented input/output behaviour at the call site.
-/

namespace StableDiffusion

/-- Recursion core of `chunk`: one batch of `n + 1` elements is split off per
step; `fuel` bounds the number of batches (any value at least the list length
is enough) and only makes the recursion structural. -/
def chunkAux (n : Nat) : Nat → List α → List (List α)
  | _, [] => []
  | 0, _ => []
  | fuel + 1, x :: xs => (x :: xs.take n) :: chunkAux n fuel (xs.drop n)

/-- Shallow embedding of `chunk(it, size)` (scripts/txt2img.py, lines 31-33):
`iter(lambda: tuple(islice(it, size)), ())` repeatedly collects up to `size`
consecutive elements into a batch and stops at the first empty batch.  Hence
for `size = 0` the very first batch is empty and no batches are produced;
otherwise consecutive groups of `size` elements are produced, the final group
holding whatever remainder is left. -/
def chunk (xs : List α) : Nat → List (List α)
  | 0 => []
  | n + 1 => chunkAux n xs.length xs

/-- Recursion core of `splitlines`; `fuel` (any value at least the character
count) only makes the recursion structural. -/
def splitlinesCharsAux : Nat → List Char → List String
  | _, [] => []
  | 0, _ => []
  | fuel + 1, c :: cs =>
    let line := (c :: cs).takeWhile (fun ch => ch ≠ '\n')
    match (c :: cs).dropWhile (fun ch => ch ≠ '\n') with
    | [] => [⟨line⟩]
    | _ :: rest => ⟨line⟩ :: splitlinesCharsAux fuel rest

/-- Models `f.read().splitlines()` (scripts/txt2img.py, line 282) for files
of newline-separated prompts: the text is split at newline characters and a
trailing newline produces no final empty line. -/
def splitlines (s : String) : List String :=
  splitlinesCharsAux s.data.length s.data

/-- The prompt batches handed to the generation loop (scripts/txt2img.py,
lines 274-283): without `--from-file`, a single batch holding `batch_size`
copies of the literal prompt; with `--from-file`, the file content (embedded
here directly as the string read from the file) is split into lines and
chunked into batches of `batch_size`. -/
def promptData (fromFile : Option String) (prompt : String) (batchSize : Nat) :
    List (List String) :=
  match fromFile with
  | none => [List.replicate batchSize prompt]
  | some content => chunk (splitlines content) batchSize

/-- A decoded image array: its numpy shape, dtype and an abstract pixel
content tag. -/
structure Img where
  shape : List Nat
  dtype : String
  pix : Nat
deriving DecidableEq

/-- The fixed placeholder picture `assets/rick.jpeg`, identified by its
abstract pixel content; `none` at a call site models the asset failing to
load (missing file or any other exception inside the `try` block). -/
structure Asset where
  pix : Nat
deriving DecidableEq

/-- Abstract content of the placeholder after `PIL.Image.resize` to
`h × w` followed by RGB conversion and numpy scaling: a function of the
asset's content and the requested dimensions. -/
def resizePix (a : Asset) (h w : Nat) : Nat :=
  Nat.pair a.pix (Nat.pair h w)

/-- Shallow embedding of `load_replacement(x)` (scripts/txt2img.py, lines
76-84).  The body reads `hwc = x.shape`, opens the placeholder, resizes it to
`(hwc[1], hwc[0])` (giving a numpy array of shape `[hwc[0], hwc[1], 3]` with
`x`'s dtype after `astype`), asserts `y.shape == x.shape` and returns `y`;
any exception (missing asset modelled by `asset = none`, too few dimensions
for the indexing, or the failing assert) is caught and `x` is returned
unchanged. -/
def load_replacement (asset : Option Asset) (x : Img) : Img :=
  match asset with
  | none => x
  | some a =>
    match x.shape with
    | h :: w :: rest =>
      let y : Img := { shape := [h, w, 3], dtype := x.dtype, pix := resizePix a h w }
      if y.shape = h :: w :: rest then y else x
    | _ => x

/-- The per-index replacement loop of `check_safety` (scripts/txt2img.py,
lines 91-93): each image whose flag is set is replaced by
`load_replacement`, the others are kept. -/
def applyReplacement (asset : Option Asset) : List Img → List Bool → List Img
  | x :: xs, fl :: fls =>
    (if fl then load_replacement asset x else x) :: applyReplacement asset xs fls
  | xs, _ => xs

/-- Shallow embedding of `check_safety(x_image)` (scripts/txt2img.py, lines
87-94) after the external classifier call: given the classifier's output
batch and its per-image flags, the assert on line 90 requires the lengths to
match (`none` models the failing assert), then the flagged indices are
replaced and the batch is returned together with the flags. -/
def check_safety (asset : Option Asset) (imgs : List Img) (flags : List Bool) :
    Option (List Img × List Bool) :=
  if imgs.length = flags.length then some (applyReplacement asset imgs flags, flags)
  else none

/-- The three sampling strategies (scripts/txt2img.py, lines 18-20). -/
inductive Sampler where
  | dpmSolver
  | plms
  | ddim
deriving DecidableEq

/-- Sampler selection (scripts/txt2img.py, lines 256-261): `--dpm_solver`
first, else `--plms`, else DDIM. -/
def selectSampler (dpmSolverFlag plmsFlag : Bool) : Sampler :=
  if dpmSolverFlag then Sampler.dpmSolver
  else if plmsFlag then Sampler.plms
  else Sampler.ddim

/-- A torch device. -/
inductive Device where
  | cuda
  | cpu
deriving DecidableEq

/-- Models torch's `Module.cuda()`: it moves the module to the CUDA device
and raises (here: an error value) when no CUDA accelerator is available. -/
def torchCuda (cudaAvailable : Bool) : Except String Device :=
  if cudaAvailable then Except.ok Device.cuda
  else Except.error "Torch not compiled with CUDA enabled"

/-- Device placement performed by `load_model_from_config` (scripts/
txt2img.py, lines 48-65): after deserialising the weights the function calls
`model.cuda()` unconditionally (line 63); the returned value is the device
the model ends up on. -/
def load_model_from_config (cudaAvailable : Bool) : Except String Device :=
  torchCuda cudaAvailable

/-- Device placement of the whole loading path in `main` (scripts/txt2img.py,
lines 249-253): the model is loaded via `load_model_from_config`, then
`device` is cuda when available else cpu, and the model is moved to it. -/
def mainModelDevice (cudaAvailable : Bool) : Except String Device :=
  (load_model_from_config cudaAvailable).map
    (fun _ => if cudaAvailable then Device.cuda else Device.cpu)

/-- The run options relevant to initial-noise handling (scripts/txt2img.py,
argument parser in `main`). -/
structure Opts where
  seed : Nat
  prompt : String
  nIter : Nat
  nSamples : Nat
  C : Nat
  H : Nat
  W : Nat
  f : Nat
  fixedCode : Bool
deriving DecidableEq

/-- The shape requested from `torch.randn` on line 299:
`[opt.n_samples, opt.C, opt.H // opt.f, opt.W // opt.f]`. -/
def startCodeShape (o : Opts) : List Nat :=
  [o.nSamples, o.C, o.H / o.f, o.W / o.f]

/-- Embeds `start_code` (scripts/txt2img.py, lines 297-299): `None` unless
`--fixed_code` is set, in which case one noise tensor is drawn before the
generation loop.  `randn` models `torch.randn` at this program point: after
`seed_everything(opt.seed)` (line 245) its value is a deterministic function
of the seed and the requested shape. -/
def start_code (o : Opts) (randn : Nat → List Nat → ν) : Option ν :=
  if o.fixedCode then some (randn o.seed (startCodeShape o)) else none

/-- The `x_T` argument passed to `sampler.sample` (line 358) at each of the
`opt.n_iter × |data|` invocations of the generation loop (lines 311-314):
the loop body never reassigns `start_code`, so every invocation receives the
variable's pre-loop value. -/
def samplerCallNoises (o : Opts) (data : List (List String)) (randn : Nat → List Nat → ν) :
    List (Option ν) :=
  (List.range o.nIter).flatMap (fun _ => data.map (fun _ => start_code o randn))

/-- The four filesystem locations images are saved to: the `samples`,
`process` and `process2` subdirectories and the output root (grid files). -/
inductive OutDir where
  | samples
  | process
  | process2
  | root
deriving DecidableEq

/-- One image-file save: the directory and the integer rendered (zero-padded)
into the file name — `f"{counter:05}.png"` for the three subdirectories,
`f"grid-{grid_count:04}.png"` for the root. -/
structure SaveEvent where
  dir : OutDir
  name : Nat
deriving DecidableEq

/-- One call of `saveImages` (scripts/txt2img.py, lines 360-392) for a batch
whose sampler run produced `steps` step snapshots, each decoding to `B`
images: the local `counter` starts at 0, the `process2` snapshots are written
first, then `counter` is reset to 0 and the `process` snapshots are written;
finally both accumulator lists are cleared. -/
def saveImagesEvents (steps B : Nat) : List SaveEvent :=
  ((List.range (steps * B)).map fun i => { dir := OutDir.process2, name := i }) ++
  ((List.range (steps * B)).map fun i => { dir := OutDir.process, name := i })

/-- The per-batch sample saving (scripts/txt2img.py, lines 409-416): unless
`--skip_save`, the `B` images of the checked batch are written to the
`samples` directory at the current `base_count`, which is incremented per
image. -/
def sampleSaveEvents (skipSave : Bool) (B base : Nat) : List SaveEvent × Nat :=
  if skipSave then ([], base)
  else ((List.range B).map (fun i => { dir := OutDir.samples, name := base + i }), base + B)

/-- One iteration of the inner `for prompts in data` loop body (scripts/
txt2img.py, lines 314-419) restricted to its file saves: the `saveImages`
flush followed by the per-sample saves, threading `base_count`. -/
def batchEvents (steps B : Nat) (skipSave : Bool) (base : Nat) : List SaveEvent × Nat :=
  let s := sampleSaveEvents skipSave B base
  (saveImagesEvents steps B ++ s.1, s.2)

/-- The inner `for prompts in data` loop (line 314), executing `nBatches`
batch bodies in sequence. -/
def dataLoopEvents (steps B : Nat) (skipSave : Bool) : Nat → Nat → List SaveEvent × Nat
  | 0, base => ([], base)
  | nBatches + 1, base =>
    let b := batchEvents steps B skipSave base
    let rest := dataLoopEvents steps B skipSave nBatches b.2
    (b.1 ++ rest.1, rest.2)

/-- The outer `for n in trange(opt.n_iter)` loop (line 311). -/
def iterLoopEvents (steps B : Nat) (skipSave : Bool) (nBatches : Nat) :
    Nat → Nat → List SaveEvent × Nat
  | 0, base => ([], base)
  | nIter + 1, base =>
    let b := dataLoopEvents steps B skipSave nBatches base
    let rest := iterLoopEvents steps B skipSave nBatches nIter b.2
    (b.1 ++ rest.1, rest.2)

/-- Models `len(os.listdir(outpath))` at line 295: the `samples`, `process` and
`process2` subdirectories were just created (lines 285-290), and the root
further holds `g` grid files and `e` unrelated entries left over from
earlier runs. -/
def rootListingCount (g e : Nat) : Nat :=
  3 + g + e

/-- Embeds `grid_count = len(os.listdir(outpath)) - 1` (scripts/txt2img.py,
line 295). -/
def gridSeed (g e : Nat) : Nat :=
  rootListingCount g e - 1

/-- All file saves of one run of `main` together with the final `base_count`
and `grid_count` (scripts/txt2img.py, lines 294-434): `base_count` is seeded
with the pre-existing file count `pre` of the `samples` directory (line 294),
`grid_count` with the root listing count minus one (line 295); the two nested
loops run the batches, and unless `--skip_grid` a single grid file named by
`grid_count` is saved afterwards and `grid_count` is incremented (lines
421-434). -/
def runEvents (pre g e steps B nBatches nIter : Nat) (skipSave skipGrid : Bool) :
    List SaveEvent × Nat × Nat :=
  let l := iterLoopEvents steps B skipSave nBatches nIter pre
  if skipGrid then (l.1, l.2, gridSeed g e)
  else (l.1 ++ [{ dir := OutDir.root, name := gridSeed g e }], l.2, gridSeed g e + 1)

/-- The file-name counters used in directory `d`, in the order the files were
written. -/
def namesIn (d : OutDir) (t : List SaveEvent) : List Nat :=
  t.filterMap fun ev => if ev.dir = d then some ev.name else none

/-- An image as decoded by `cv2.imread`: height, width and abstract pixel
content (`frame.shape` is `(height, width, layers)`). -/
structure CvImg where
  h : Nat
  w : Nat
  pix : Nat
deriving DecidableEq

/-- A written video container: frame rate, frame size `(width, height)` as
passed to `cv2.VideoWriter`, and the frame sequence. -/
structure Video where
  fps : Nat
  size : Nat × Nat
  frames : List CvImg
deriving DecidableEq

/-- Whether a directory entry name ends in ".png", on the character level
(Python `img.endswith(".png")`, scripts/make_video.py line 6). -/
def isPngName (name : String) : Bool :=
  ".png".data.isSuffixOf name.data

/-- Shallow embedding of `write_video(video_name, image_folder)`
(scripts/make_video.py, lines 5-16): `listing` is the directory listing in
`os.listdir` order and `imgOf` models `cv2.imread` on the files present.
The PNG entries are selected, `images[0]` is read to take the frame size
(raising an index error — modelled as the error value — when there are no
PNG entries), a 5-fps `cv2.VideoWriter` is opened with size
`(width, height)` of that first frame, and every PNG is written in listing
order. -/
def write_video (listing : List String) (imgOf : String → CvImg) : Except String Video :=
  match listing.filter (fun img => isPngName img) with
  | [] => Except.error "list index out of range"
  | first :: rest =>
    Except.ok
      { fps := 5
        size := ((imgOf first).w, (imgOf first).h)
        frames := (first :: rest).map imgOf }

theorem chunkAux_flatten (n : Nat) :
    ∀ (fuel : Nat) (xs : List α), xs.length ≤ fuel → (chunkAux n fuel xs).flatten = xs := by
  intro fuel
  induction fuel with
  | zero =>
    intro xs h
    cases xs with
    | nil => simp [chunkAux]
    | cons x xs => simp at h
  | succ fuel ih =>
    intro xs h
    cases xs with
    | nil => simp [chunkAux]
    | cons x xs =>
      have hih : (chunkAux n fuel (xs.drop n)).flatten = xs.drop n := by
        apply ih
        simp only [List.length_drop]
        simp only [List.length_cons] at h
        omega
      simp [chunkAux, hih, List.take_append_drop]

theorem chunkAux_ne_nil (n : Nat) :
    ∀ (fuel : Nat) (xs : List α), ∀ b ∈ chunkAux n fuel xs, b ≠ [] := by
  intro fuel
  induction fuel with
  | zero =>
    intro xs b hb
    cases xs <;> simp [chunkAux] at hb
  | succ fuel ih =>
    intro xs b hb
    cases xs with
    | nil => simp [chunkAux] at hb
    | cons x xs =>
      simp only [chunkAux, List.mem_cons] at hb
      rcases hb with rfl | hb
      · simp
      · exact ih (xs.drop n) b hb

theorem chunkAux_length_le (n : Nat) :
    ∀ (fuel : Nat) (xs : List α), ∀ b ∈ chunkAux n fuel xs, b.length ≤ n + 1 := by
  intro fuel
  induction fuel with
  | zero =>
    intro xs b hb
    cases xs <;> simp [chunkAux] at hb
  | succ fuel ih =>
    intro xs b hb
    cases xs with
    | nil => simp [chunkAux] at hb
    | cons x xs =>
      simp only [chunkAux, List.mem_cons] at hb
      rcases hb with rfl | hb
      · simp only [List.length_cons, Nat.add_le_add_iff_right]
        exact List.length_take_le n xs
      · exact ih (xs.drop n) b hb

theorem chunkAux_nil_of_nil (n fuel : Nat) : chunkAux n fuel ([] : List α) = [] := by
  cases fuel <;> rfl

theorem chunkAux_dropLast_length (n : Nat) :
    ∀ (fuel : Nat) (xs : List α), xs.length ≤ fuel →
      ∀ b ∈ (chunkAux n fuel xs).dropLast, b.length = n + 1 := by
  intro fuel
  induction fuel with
  | zero =>
    intro xs h b hb
    cases xs with
    | nil => simp [chunkAux] at hb
    | cons x xs => simp at h
  | succ fuel ih =>
    intro xs h b hb
    cases xs with
    | nil => simp [chunkAux] at hb
    | cons x xs =>
      simp only [chunkAux] at hb
      cases hrest : chunkAux n fuel (xs.drop n) with
      | nil => rw [hrest] at hb; simp at hb
      | cons c cs =>
        rw [hrest, List.dropLast_cons_of_ne_nil (by simp), List.mem_cons] at hb
        rcases hb with rfl | hb
        · have hne : xs.drop n ≠ [] := by
            intro e
            rw [e, chunkAux_nil_of_nil] at hrest
            exact List.noConfusion hrest
          have hlen : n ≤ xs.length := by
            have hpos := List.length_pos.mpr hne
            simp only [List.length_drop] at hpos
            omega
          simp [List.length_take, Nat.min_eq_left hlen]
        · have hmem := ih (xs.drop n)
            (by simp only [List.length_drop]; simp only [List.length_cons] at h; omega) b
          rw [hrest] at hmem
          exact hmem hb

theorem chunk_flatten (xs : List α) (k : Nat) (hk : 0 < k) : (chunk xs k).flatten = xs := by
  obtain ⟨n, rfl⟩ : ∃ n, k = n + 1 := ⟨k - 1, by omega⟩
  exact chunkAux_flatten n xs.length xs (Nat.le_refl _)

theorem chunk_ne_nil (xs : List α) (k : Nat) (hk : 0 < k) : ∀ b ∈ chunk xs k, b ≠ [] := by
  obtain ⟨n, rfl⟩ : ∃ n, k = n + 1 := ⟨k - 1, by omega⟩
  exact chunkAux_ne_nil n xs.length xs

theorem chunk_length_le (xs : List α) (k : Nat) (hk : 0 < k) :
    ∀ b ∈ chunk xs k, b.length ≤ k := by
  obtain ⟨n, rfl⟩ : ∃ n, k = n + 1 := ⟨k - 1, by omega⟩
  exact chunkAux_length_le n xs.length xs

theorem chunk_dropLast_length (xs : List α) (k : Nat) (hk : 0 < k) :
    ∀ b ∈ (chunk xs k).dropLast, b.length = k := by
  obtain ⟨n, rfl⟩ : ∃ n, k = n + 1 := ⟨k - 1, by omega⟩
  exact chunkAux_dropLast_length n xs.length xs (Nat.le_refl _)

/-- C9: for every finite sequence and every positive chunk size,
concatenating the batches produced by `chunk` in order restores the sequence
exactly (every element once, in its original position); every batch except
possibly the last has length exactly the chunk size, and every produced
batch is non-empty. -/
theorem chunk_roundTrip (xs : List α) (k : Nat) (hk : 0 < k) :
    (chunk xs k).flatten = xs ∧
    (∀ b ∈ chunk xs k, b ≠ []) ∧
    (∀ b ∈ (chunk xs k).dropLast, b.length = k) :=
  ⟨chunk_flatten xs k hk, chunk_ne_nil xs k hk, chunk_dropLast_length xs k hk⟩

/-- Witness for C9 at a concrete input. -/
theorem chunk_roundTrip_witness :
    (chunk [0, 1, 2] 2).flatten = [0, 1, 2] ∧
    (∀ b ∈ chunk [0, 1, 2] 2, b ≠ []) ∧
    (∀ b ∈ (chunk [0, 1, 2] 2).dropLast, b.length = 2) :=
  chunk_roundTrip [0, 1, 2] 2 (by decide)

/-- C3 counterexample: a prompt file holding three newline-separated prompts
chunked with batch size 2 hands the generation loop a final batch of only
one prompt, so not every batch has exactly batch-size prompts. -/
theorem promptBatch_size_counterexample :
    ¬ (∀ b ∈ promptData (some "a\nb\nc") "p" 2, b.length = 2) := by
  decide

/-- C3 (amended): every batch from a literal prompt has exactly batch-size
prompts; with a prompt file and a positive batch size every batch except
possibly the last has exactly batch-size prompts, and every batch is
non-empty with at most batch-size prompts. -/
theorem promptBatch_sizes (p content : String) (k : Nat) (hk : 0 < k) :
    (∀ b ∈ promptData none p k, b.length = k) ∧
    (∀ b ∈ (promptData (some content) p k).dropLast, b.length = k) ∧
    (∀ b ∈ promptData (some content) p k, b ≠ [] ∧ b.length ≤ k) := by
  refine ⟨?_, ?_, ?_⟩
  · intro b hb
    simp only [promptData, List.mem_singleton] at hb
    subst hb
    exact List.length_replicate k p
  · intro b hb
    exact chunk_dropLast_length (splitlines content) k hk b hb
  · intro b hb
    exact ⟨chunk_ne_nil (splitlines content) k hk b hb,
      chunk_length_le (splitlines content) k hk b hb⟩

/-- Witness for the amended C3 at a concrete input. -/
theorem promptBatch_sizes_witness :
    (∀ b ∈ promptData none "p" 2, b.length = 2) ∧
    (∀ b ∈ (promptData (some "a\nb\nc") "p" 2).dropLast, b.length = 2) ∧
    (∀ b ∈ promptData (some "a\nb\nc") "p" 2, b ≠ [] ∧ b.length ≤ 2) :=
  promptBatch_sizes "p" "a\nb\nc" 2 (by decide)

theorem load_replacement_none (x : Img) : load_replacement none x = x := rfl

theorem load_replacement_preserves (asset : Option Asset) (x : Img) :
    (load_replacement asset x).shape = x.shape ∧ (load_replacement asset x).dtype = x.dtype := by
  rcases asset with _ | a
  · exact ⟨rfl, rfl⟩
  · rcases x with ⟨sh, dt, px⟩
    rcases sh with _ | ⟨h, _ | ⟨w, rest⟩⟩
    · exact ⟨rfl, rfl⟩
    · exact ⟨rfl, rfl⟩
    · simp only [load_replacement]
      split
      · next heq => exact ⟨heq, rfl⟩
      · exact ⟨rfl, rfl⟩

theorem load_replacement_replaces (a : Asset) (x : Img) (h w : Nat)
    (hsh : x.shape = [h, w, 3]) :
    load_replacement (some a) x = { shape := [h, w, 3], dtype := x.dtype, pix := resizePix a h w } := by
  rcases x with ⟨sh, dt, px⟩
  simp only at hsh
  subst hsh
  simp [load_replacement]

theorem applyReplacement_length (asset : Option Asset) :
    ∀ (imgs : List Img) (flags : List Bool),
      (applyReplacement asset imgs flags).length = imgs.length := by
  intro imgs
  induction imgs with
  | nil => intro flags; cases flags <;> rfl
  | cons x xs ih =>
    intro flags
    cases flags with
    | nil => rfl
    | cons fl fls => simp [applyReplacement, ih fls]

theorem applyReplacement_getElem? (asset : Option Asset) :
    ∀ (imgs : List Img) (flags : List Bool) (i : Nat) (x : Img) (fl : Bool),
      imgs[i]? = some x → flags[i]? = some fl →
      (applyReplacement asset imgs flags)[i]? =
        some (if fl then load_replacement asset x else x) := by
  intro imgs
  induction imgs with
  | nil => intro flags i x fl hx; simp at hx
  | cons y ys ih =>
    intro flags i x fl hx hfl
    cases flags with
    | nil => simp at hfl
    | cons g gs =>
      cases i with
      | zero =>
        simp only [List.getElem?_cons_zero, Option.some.injEq] at hx hfl
        subst hx; subst hfl
        simp [applyReplacement]
      | succ i =>
        simp only [List.getElem?_cons_succ] at hx hfl
        simpa [applyReplacement] using ih gs i x fl hx hfl

/-- C2: for every decoded batch whose checked images and flags agree in
length, `check_safety` succeeds and replaces exactly the flagged indices by
`load_replacement` of the image: a flagged image of shape `h × w × 3` becomes
the placeholder resized to its own height and width (with its own dtype);
when the placeholder asset cannot be loaded (`asset = none`) the image at
that index is left exactly as it was, silently; unflagged images are
untouched, and the batch length is preserved. -/
theorem check_safety_replacement (asset : Option Asset) (imgs : List Img) (flags : List Bool)
    (hlen : imgs.length = flags.length) :
    ∃ out, check_safety asset imgs flags = some (out, flags) ∧
      out.length = imgs.length ∧
      (∀ (i : Nat) (x : Img), imgs[i]? = some x → flags[i]? = some false → out[i]? = some x) ∧
      (∀ (i : Nat) (x : Img), imgs[i]? = some x → flags[i]? = some true →
        out[i]? = some (load_replacement asset x)) ∧
      (∀ (i : Nat) (x : Img), imgs[i]? = some x → flags[i]? = some true → asset = none →
        out[i]? = some x) ∧
      (∀ (i : Nat) (x : Img) (a : Asset) (h w : Nat), imgs[i]? = some x → flags[i]? = some true → asset = some a →
        x.shape = [h, w, 3] →
        out[i]? = some { shape := [h, w, 3], dtype := x.dtype, pix := resizePix a h w }) := by
  refine ⟨applyReplacement asset imgs flags, by simp [check_safety, hlen], ?_, ?_, ?_, ?_, ?_⟩
  · exact applyReplacement_length asset imgs flags
  · intro i x hx hfl
    simpa using applyReplacement_getElem? asset imgs flags i x false hx hfl
  · intro i x hx hfl
    simpa using applyReplacement_getElem? asset imgs flags i x true hx hfl
  · intro i x hx hfl hasset
    subst hasset
    simpa [load_replacement_none] using applyReplacement_getElem? none imgs flags i x true hx hfl
  · intro i x a h w hx hfl hasset hsh
    subst hasset
    have := applyReplacement_getElem? (some a) imgs flags i x true hx hfl
    rwa [if_pos rfl, load_replacement_replaces a x h w hsh] at this

/-- Witness for C2 at a concrete input: a two-image batch whose second image
is flagged. -/
theorem check_safety_replacement_witness :
    ∃ out,
      check_safety (some { pix := 9 })
        [{ shape := [2, 3, 3], dtype := "float32", pix := 5 },
         { shape := [2, 3, 3], dtype := "float32", pix := 6 }] [false, true] =
        some (out, [false, true]) ∧
      out.length =
        [{ shape := [2, 3, 3], dtype := "float32", pix := 5 },
         ({ shape := [2, 3, 3], dtype := "float32", pix := 6 } : Img)].length ∧
      (∀ (i : Nat) (x : Img),
        [{ shape := [2, 3, 3], dtype := "float32", pix := 5 },
         ({ shape := [2, 3, 3], dtype := "float32", pix := 6 } : Img)][i]? = some x →
        [false, true][i]? = some false → out[i]? = some x) ∧
      (∀ (i : Nat) (x : Img),
        [{ shape := [2, 3, 3], dtype := "float32", pix := 5 },
         ({ shape := [2, 3, 3], dtype := "float32", pix := 6 } : Img)][i]? = some x →
        [false, true][i]? = some true →
        out[i]? = some (load_replacement (some { pix := 9 }) x)) ∧
      (∀ (i : Nat) (x : Img),
        [{ shape := [2, 3, 3], dtype := "float32", pix := 5 },
         ({ shape := [2, 3, 3], dtype := "float32", pix := 6 } : Img)][i]? = some x →
        [false, true][i]? = some true → (some { pix := 9 } : Option Asset) = none →
        out[i]? = some x) ∧
      (∀ (i : Nat) (x : Img) (a : Asset) (h w : Nat),
        [{ shape := [2, 3, 3], dtype := "float32", pix := 5 },
         ({ shape := [2, 3, 3], dtype := "float32", pix := 6 } : Img)][i]? = some x →
        [false, true][i]? = some true → (some { pix := 9 } : Option Asset) = some a →
        x.shape = [h, w, 3] →
        out[i]? = some { shape := [h, w, 3], dtype := x.dtype, pix := resizePix a h w }) :=
  check_safety_replacement (some { pix := 9 })
    [{ shape := [2, 3, 3], dtype := "float32", pix := 5 },
     { shape := [2, 3, 3], dtype := "float32", pix := 6 }] [false, true] rfl

/-- C10: `load_replacement` is total (every failure inside the try block is
caught and the input returned) and always yields an image of exactly the
input's shape and dtype; consequently the per-index replacement loop of
`check_safety` preserves the shape sequence of the checked batch. -/
theorem load_replacement_shape_safe (asset : Option Asset) (x : Img)
    (imgs : List Img) (flags : List Bool) :
    (load_replacement asset x).shape = x.shape ∧
    (load_replacement asset x).dtype = x.dtype ∧
    (applyReplacement asset imgs flags).map Img.shape = imgs.map Img.shape := by
  refine ⟨(load_replacement_preserves asset x).1, (load_replacement_preserves asset x).2, ?_⟩
  induction imgs generalizing flags with
  | nil => cases flags <;> rfl
  | cons y ys ih =>
    cases flags with
    | nil => rfl
    | cons fl fls =>
      cases fl with
      | false => simp [applyReplacement, ih fls]
      | true => simp [applyReplacement, ih fls, (load_replacement_preserves asset y).1]

/-- C5: sampler selection is decided exclusively by the two flags with fixed
priority, over every combination: the DPM-solver flag wins regardless of the
PLMS flag, else the PLMS flag selects PLMS, else DDIM is the default. -/
theorem selectSampler_priority :
    selectSampler true true = Sampler.dpmSolver ∧
    selectSampler true false = Sampler.dpmSolver ∧
    selectSampler false true = Sampler.plms ∧
    selectSampler false false = Sampler.ddim := by
  decide

/-- C4: evaluation of the loading path's device placement.  With an
accelerator available the model is loaded and ends up on it, but without one
the unconditional `model.cuda()` inside `load_model_from_config` (line 63)
raises, so loading fails instead of falling back to CPU as the claim (and
the comment on line 251 together with the fallback on lines 252-253, which
is then unreachable) intends. -/
theorem mainModelDevice_eval :
    mainModelDevice true = Except.ok Device.cuda ∧
    mainModelDevice false = Except.error "Torch not compiled with CUDA enabled" ∧
    mainModelDevice false ≠ Except.ok Device.cpu := by
  refine ⟨rfl, rfl, ?_⟩
  intro h
  exact Except.noConfusion h

/-- C6: under `--fixed_code` the initial noise tensor is drawn once before
the generation loop and that very value is passed as `x_T` to every sampler
invocation of the run (every iteration and every prompt batch); and any two
runs with the same seed and the same shape parameters — the prompt and the
iteration count may differ — obtain the identical initial noise tensor,
since after seeding it is a deterministic function of seed and shape. -/
theorem fixedCode_noise_reuse {ν : Type} (randn : Nat → List Nat → ν) (o o₂ : Opts)
    (data : List (List String)) (hfix : o.fixedCode = true) (hfix₂ : o₂.fixedCode = true)
    (hseed : o₂.seed = o.seed) (hn : o₂.nSamples = o.nSamples) (hC : o₂.C = o.C)
    (hH : o₂.H = o.H) (hW : o₂.W = o.W) (hf : o₂.f = o.f) :
    (∀ x ∈ samplerCallNoises o data randn, x = some (randn o.seed (startCodeShape o))) ∧
    start_code o₂ randn = start_code o randn := by
  constructor
  · intro x hx
    simp only [samplerCallNoises, List.mem_flatMap, List.mem_map, List.mem_range] at hx
    obtain ⟨_, _, _, _, rfl⟩ := hx
    simp [start_code, hfix]
  · simp [start_code, hfix, hfix₂, hseed, startCodeShape, hn, hC, hH, hW, hf]

/-- Witness for C6 at a concrete input: two runs agreeing on seed and shape
but differing in prompt and iteration count. -/
theorem fixedCode_noise_reuse_witness :
    (∀ x ∈ samplerCallNoises ⟨42, "p", 2, 3, 4, 512, 512, 8, true⟩ [["p", "p", "p"]]
        (fun s sh => (s, sh)),
      x = some ((fun (s : Nat) (sh : List Nat) => (s, sh)) 42
        (startCodeShape ⟨42, "p", 2, 3, 4, 512, 512, 8, true⟩))) ∧
    start_code ⟨42, "q", 7, 3, 4, 512, 512, 8, true⟩ (fun (s : Nat) (sh : List Nat) => (s, sh)) =
      start_code ⟨42, "p", 2, 3, 4, 512, 512, 8, true⟩ (fun (s : Nat) (sh : List Nat) => (s, sh)) :=
  fixedCode_noise_reuse (fun s sh => (s, sh)) ⟨42, "p", 2, 3, 4, 512, 512, 8, true⟩
    ⟨42, "q", 7, 3, 4, 512, 512, 8, true⟩ [["p", "p", "p"]] rfl rfl rfl rfl rfl rfl rfl rfl

theorem filterMap_const_none (l : List α) :
    l.filterMap (fun _ => (none : Option β)) = [] := by
  simp

theorem filterMap_const_some (f : α → β) (l : List α) :
    l.filterMap (fun x => some (f x)) = l.map f := by
  rw [← List.filterMap_eq_map]
  rfl

theorem namesIn_append (d : OutDir) (t t' : List SaveEvent) :
    namesIn d (t ++ t') = namesIn d t ++ namesIn d t' :=
  List.filterMap_append t t' _

theorem namesIn_batch_samples (steps B base : Nat) :
    namesIn OutDir.samples (batchEvents steps B false base).1 = (List.range B).map (base + ·) := by
  simp [batchEvents, sampleSaveEvents, saveImagesEvents, namesIn, List.filterMap_append,
    List.filterMap_map, Function.comp_def, filterMap_const_none, filterMap_const_some]

theorem batch_samples_count (steps B base : Nat) :
    (batchEvents steps B false base).2 = base + B := by
  simp [batchEvents, sampleSaveEvents]

theorem range_shift_append (a b base : Nat) :
    (List.range (a + b)).map (base + ·) =
      (List.range a).map (base + ·) ++ (List.range b).map ((base + a) + ·) := by
  rw [List.range_add, List.map_append, List.map_map]
  have hfun : ((fun x => base + x) ∘ fun x => a + x) = fun x => base + a + x := by
    funext x
    simp [Function.comp_def, Nat.add_assoc]
  rw [hfun]

theorem dataLoop_samples (steps B : Nat) :
    ∀ (nBatches base : Nat),
      namesIn OutDir.samples (dataLoopEvents steps B false nBatches base).1
        = (List.range (nBatches * B)).map (base + ·) ∧
      (dataLoopEvents steps B false nBatches base).2 = base + nBatches * B := by
  intro nBatches
  induction nBatches with
  | zero => intro base; simp [dataLoopEvents, namesIn]
  | succ n ih =>
    intro base
    have ihb := ih (base + B)
    have hmul : (n + 1) * B = B + n * B := by ring
    constructor
    · simp only [dataLoopEvents]
      rw [namesIn_append, namesIn_batch_samples, batch_samples_count, ihb.1, hmul,
        range_shift_append]
    · simp only [dataLoopEvents]
      rw [batch_samples_count, ihb.2, hmul]
      ring

theorem iterLoop_samples (steps B nBatches : Nat) :
    ∀ (nIter base : Nat),
      namesIn OutDir.samples (iterLoopEvents steps B false nBatches nIter base).1
        = (List.range (nIter * (nBatches * B))).map (base + ·) ∧
      (iterLoopEvents steps B false nBatches nIter base).2 = base + nIter * (nBatches * B) := by
  intro nIter
  induction nIter with
  | zero => intro base; simp [iterLoopEvents, namesIn]
  | succ n ih =>
    intro base
    have hd := dataLoop_samples steps B nBatches base
    have ihb := ih (base + nBatches * B)
    have hmul : (n + 1) * (nBatches * B) = nBatches * B + n * (nBatches * B) := by ring
    constructor
    · simp only [iterLoopEvents]
      rw [namesIn_append, hd.1, hd.2, ihb.1, hmul, range_shift_append]
    · simp only [iterLoopEvents]
      rw [hd.2, ihb.2, hmul]
      ring

theorem namesIn_root_batch (steps B : Nat) (skipSave : Bool) (base : Nat) :
    namesIn OutDir.root (batchEvents steps B skipSave base).1 = [] := by
  cases skipSave <;>
    simp [batchEvents, sampleSaveEvents, saveImagesEvents, namesIn, List.filterMap_append,
      List.filterMap_map, Function.comp_def, filterMap_const_none, filterMap_const_some]

theorem namesIn_root_dataLoop (steps B : Nat) (skipSave : Bool) :
    ∀ (nBatches base : Nat),
      namesIn OutDir.root (dataLoopEvents steps B skipSave nBatches base).1 = [] := by
  intro nBatches
  induction nBatches with
  | zero => intro base; simp [dataLoopEvents, namesIn]
  | succ n ih =>
    intro base
    simp only [dataLoopEvents]
    rw [namesIn_append, namesIn_root_batch, ih]
    rfl

theorem namesIn_root_iterLoop (steps B : Nat) (skipSave : Bool) (nBatches : Nat) :
    ∀ (nIter base : Nat),
      namesIn OutDir.root (iterLoopEvents steps B skipSave nBatches nIter base).1 = [] := by
  intro nIter
  induction nIter with
  | zero => intro base; simp [iterLoopEvents, namesIn]
  | succ n ih =>
    intro base
    simp only [iterLoopEvents]
    rw [namesIn_append, namesIn_root_dataLoop, ih]
    rfl

/-- C1 counterexample: in a run of two batches of one image each with one
step snapshot per batch (saving not suppressed), the `process2` directory
file counter is `[0, 0]`: the second batch restarts the counter at zero
instead of continuing a monotonically increasing counter seeded from the
directory's pre-existing files, so the two writes collide on the same
zero-padded file name. -/
theorem process_counter_counterexample :
    namesIn OutDir.process2 (runEvents 0 0 0 1 1 1 2 false true).1 = [0, 0] ∧
    ¬ (namesIn OutDir.process2 (runEvents 0 0 0 1 1 1 2 false true).1).Nodup := by
  decide

/-- C1 (amended): the samples-directory and grid counters behave as claimed:
for every run in which saving is not suppressed, the file names written to
the `samples` directory are exactly the consecutive counters `pre`,
`pre + 1`, …, starting at the pre-existing file count `pre`, with no gaps or
collisions, and after `nIter × nBatches` batches of size `B` the counter
equals `pre + nIter·nBatches·B`.  The `process` and `process2` counters, by
contrast, restart at zero on every batch flush (see the counterexample), so
their file names collide across batches. -/
theorem samples_counter_amended (pre g e steps B nBatches nIter : Nat) (skipGrid : Bool) :
    namesIn OutDir.samples (runEvents pre g e steps B nBatches nIter false skipGrid).1
      = (List.range (nIter * nBatches * B)).map (pre + ·) ∧
    (runEvents pre g e steps B nBatches nIter false skipGrid).2.1
      = pre + nIter * nBatches * B := by
  have hl := iterLoop_samples steps B nBatches nIter pre
  have hmm : nIter * nBatches * B = nIter * (nBatches * B) := Nat.mul_assoc nIter nBatches B
  cases skipGrid with
  | false =>
    constructor
    · simp only [runEvents, Bool.false_eq_true, if_false]
      rw [namesIn_append, hl.1, hmm]
      simp [namesIn]
    · simp only [runEvents, Bool.false_eq_true, if_false]
      rw [hl.2, hmm]
  | true =>
    constructor
    · simp only [runEvents, if_true]
      rw [hl.1, hmm]
    · simp only [runEvents, if_true]
      rw [hl.2, hmm]

/-- C7: the grid-file counter is seeded separately from the per-sample
counter (the seed is independent of the samples directory's pre-existing
count `pre`): it equals the sibling-entry count of the output root minus
one, i.e. the pre-existing grid count `g` plus the constant `e + 2`
contributed by the three just-created subdirectories and the `e` unrelated
root entries — off by a constant from a pure grid count; exactly one grid
file is saved under that name and the counter is incremented once for it. -/
theorem grid_counter_spec (pre g e steps B nBatches nIter : Nat) (skipSave : Bool) :
    namesIn OutDir.root (runEvents pre g e steps B nBatches nIter skipSave false).1
      = [gridSeed g e] ∧
    (runEvents pre g e steps B nBatches nIter skipSave false).2.2 = gridSeed g e + 1 ∧
    gridSeed g e = g + (e + 2) := by
  refine ⟨?_, ?_, ?_⟩
  · simp only [runEvents, Bool.false_eq_true, if_false]
    rw [namesIn_append, namesIn_root_iterLoop]
    simp [namesIn]
  · simp [runEvents]
  · simp only [gridSeed, rootListingCount]
    omega

/-- C8: for every directory listing whose PNG entries all decode to images
of uniform size `W × H`, the video assembler writes a container with exactly
as many frames as there are PNG entries, at fixed 5 fps, with frame size
`(W, H)` taken from the first listed PNG, the frames appearing in
directory-listing order; given a listing with zero PNG entries it fails
deterministically (the `images[0]` index error). -/
theorem write_video_spec (listing : List String) (imgOf : String → CvImg) (H W : Nat)
    (huniform : ∀ name ∈ listing.filter (fun img => isPngName img),
      (imgOf name).h = H ∧ (imgOf name).w = W) :
    ((listing.filter (fun img => isPngName img)).length = 0 →
      write_video listing imgOf = Except.error "list index out of range") ∧
    (0 < (listing.filter (fun img => isPngName img)).length →
      ∃ v, write_video listing imgOf = Except.ok v ∧
        v.fps = 5 ∧ v.size = (W, H) ∧
        v.frames = (listing.filter (fun img => isPngName img)).map imgOf ∧
        v.frames.length = (listing.filter (fun img => isPngName img)).length ∧
        ∀ fr ∈ v.frames, fr.h = H ∧ fr.w = W) := by
  cases hfil : listing.filter (fun img => isPngName img) with
  | nil =>
    constructor
    · intro _
      simp [write_video, hfil]
    · intro hpos
      simp at hpos
  | cons first rest =>
    have hmem : ∀ name ∈ first :: rest, (imgOf name).h = H ∧ (imgOf name).w = W := by
      intro name hn
      exact huniform name (hfil ▸ hn)
    constructor
    · intro h0
      simp at h0
    · intro _
      refine ⟨{ fps := 5, size := ((imgOf first).w, (imgOf first).h),
                frames := (first :: rest).map imgOf }, ?_, rfl, ?_, ?_, ?_, ?_⟩
      · simp only [write_video, hfil]
      · have h1 := hmem first (List.mem_cons_self first rest)
        simp [h1.1, h1.2]
      · rfl
      · simp
      · intro fr hfr
        simp only [List.mem_map] at hfr
        obtain ⟨name, hn, rfl⟩ := hfr
        exact hmem name hn

/-- Witness for C8 at a concrete input: a listing of two PNG entries and one
non-PNG entry, every image decoding to 640 × 480. -/
theorem write_video_spec_witness :
    ((["00000.png", "notes.txt", "00001.png"].filter (fun img => isPngName img)).length = 0 →
      write_video ["00000.png", "notes.txt", "00001.png"]
          (fun _ => { h := 480, w := 640, pix := 7 }) =
        Except.error "list index out of range") ∧
    (0 < (["00000.png", "notes.txt", "00001.png"].filter (fun img => isPngName img)).length →
      ∃ v, write_video ["00000.png", "notes.txt", "00001.png"]
          (fun _ => { h := 480, w := 640, pix := 7 }) = Except.ok v ∧
        v.fps = 5 ∧ v.size = (640, 480) ∧
        v.frames = (["00000.png", "notes.txt", "00001.png"].filter
          (fun img => isPngName img)).map (fun _ => { h := 480, w := 640, pix := 7 }) ∧
        v.frames.length = (["00000.png", "notes.txt", "00001.png"].filter
          (fun img => isPngName img)).length ∧
        ∀ fr ∈ v.frames, fr.h = 480 ∧ fr.w = 640) :=
  write_video_spec ["00000.png", "notes.txt", "00001.png"]
    (fun _ => { h := 480, w := 640, pix := 7 }) 480 640 (by decide)

end StableDiffusion
